import Mathlib

/-!
# Railgun: the command-line entry point

A shallow embedding of `cmd/railgun/main.go` (and of the two checks of
`cmd/railgun/main_test.go`).

The program registers two boolean flags, parses the command line, and prints
one of three texts.  The process is modelled by explicit state passing over a
`World`: the bytes written to standard output so far, and the code handed to
`os.Exit` once it has been called.  After `os.Exit` nothing else runs, so every
primitive leaves a world that has exited untouched; `main` is then written as
the same straight sequence of statements as the source.

`flag.Parse` belongs to the Go standard library.  Its result on a command line
that parses is taken as a parameter: the values of the two registered flags and
the remaining positional arguments.
-/

namespace Railgun

/-! ## Standard-library primitives used by the program -/

/-- The observable state of the process: what has been written to standard
output, and the exit code once `os.Exit` has been called (`none` while the
process is still running, or when `main` has simply returned). -/
structure World where
  stdout : String
  exit : Option Int
deriving DecidableEq, Repr

/-- A freshly started process: nothing written, not exited. -/
def World.start : World := ⟨"", none⟩

/-- The exit status the operating system sees: the argument of `os.Exit`, or
0 when `main` returns. -/
def World.exitStatus (w : World) : Int :=
  match w.exit with
  | some code => code
  | none => 0

/-- Writing to standard output (`os.Stdout.Write`): a process that has exited
writes nothing. -/
def write (w : World) (s : String) : World :=
  match w.exit with
  | some _ => w
  | none => { w with stdout := w.stdout ++ s }

/-- Go `os.Exit(code)`: the process terminates with `code`; a second call is
never reached. -/
def osExit (w : World) (code : Int) : World :=
  match w.exit with
  | some _ => w
  | none => { w with exit := some code }

/-- Go `fmt.Println(s)` with one string operand: the operand and a newline. -/
def Println (w : World) (s : String) : World :=
  write w (s ++ "\n")

/-- Go `fmt.Println()` without operands: a newline. -/
def Println0 (w : World) : World :=
  write w "\n"

/-- The formatting of `fmt.Sprintf` restricted to what the program uses: the
verb `%s` consumes the next string operand, `%%` is a literal percent sign, and
a `%s` without an operand prints Go's `%!s(MISSING)`.  Every other character is
copied. -/
def formatChars : List Char → List String → List Char
  | [], _ => []
  | '%' :: 's' :: rest, a :: args => a.data ++ formatChars rest args
  | '%' :: 's' :: rest, [] => "%!s(MISSING)".data ++ formatChars rest []
  | '%' :: '%' :: rest, args => '%' :: formatChars rest args
  | c :: rest, args => c :: formatChars rest args

/-- Go `fmt.Sprintf(format, args...)` for string operands. -/
def Sprintf (format : String) (args : List String) : String :=
  ⟨formatChars format.data args⟩

/-- Go `fmt.Printf(format, args...)` for string operands. -/
def Printf (w : World) (format : String) (args : List String) : World :=
  write w (Sprintf format args)

/-- Go `strings.HasPrefix(s, p)` on character lists. -/
def HasPrefix : List Char → List Char → Bool
  | _, [] => true
  | [], _ :: _ => false
  | c :: s, d :: p => c == d && HasPrefix s p

/-- Substring search on character lists: `sub` starts at some position of the
text. -/
def containsChars : List Char → List Char → Bool
  | [], sub => HasPrefix [] sub
  | c :: s, sub => HasPrefix (c :: s) sub || containsChars s sub

/-- Go `strings.Contains(s, substr)`. -/
def Contains (s substr : String) : Bool :=
  containsChars s.data substr.data

/-! ## `cmd/railgun/main.go` -/

/-- `const version = "0.1.0-dev"`. -/
def version : String := "0.1.0-dev"

/-- A boolean flag as registered with `flag.Bool(name, value, usage)`. -/
structure BoolFlag where
  name : String
  value : Bool
  usage : String
deriving DecidableEq, Repr

/-- `showVersion = flag.Bool("version", false, "Show version information")`. -/
def showVersionFlag : BoolFlag := ⟨"version", false, "Show version information"⟩

/-- `showHelp = flag.Bool("help", false, "Show help information")`. -/
def showHelpFlag : BoolFlag := ⟨"help", false, "Show help information"⟩

/-- The flags `main` registers before `flag.Parse()`, in source order. -/
def registeredFlags : List BoolFlag := [showVersionFlag, showHelpFlag]

/-- The state `flag.Parse()` leaves behind on a command line that parses:
`*showVersion`, `*showHelp`, and the positional arguments (`flag.Args()`),
which `main` never reads. -/
structure Flags where
  showVersion : Bool
  showHelp : Bool
  args : List String
deriving DecidableEq, Repr

/-- `func printHelp()`: eleven `fmt.Println` calls. -/
def printHelp (w : World) : World :=
  let w := Println w "Railgun - High-performance streaming data pipeline for PostgreSQL"
  let w := Println0 w
  let w := Println w "Usage:"
  let w := Println w "  railgun [options]"
  let w := Println0 w
  let w := Println w "Options:"
  let w := Println w "  --version    Show version information"
  let w := Println w "  --help       Show this help message"
  let w := Println0 w
  let w := Println w "This tool is under active development."
  let w := Println w "Visit https://github.com/benidevo/railgun for more information."
  w

/-- `func main()`, from the return of `flag.Parse()` on: the version branch,
the help branch, then the two default lines.  The statements after an
`os.Exit` are kept in sequence; they have no effect on an exited world. -/
def main (f : Flags) (w : World) : World :=
  let w :=
    if f.showVersion then
      let w := Printf w "railgun version %s\n" [version]
      osExit w 0
    else w
  let w :=
    if f.showHelp then
      let w := printHelp w
      osExit w 0
    else w
  let w := Println w "Railgun - High-performance streaming data pipeline for PostgreSQL"
  let w := Println w "Under development. Use --help for more information."
  w

/-- The text `printHelp` writes when run in a fresh process. -/
def helpText : String := (printHelp World.start).stdout

/-- The two lines of the default path, as written to standard output. -/
def banner : String :=
  "Railgun - High-performance streaming data pipeline for PostgreSQL\n" ++
  "Under development. Use --help for more information.\n"

/-! ## `cmd/railgun/main_test.go` -/

/-- `expectedStrings` of `TestPrintHelp`. -/
def expectedStrings : List String :=
  ["Railgun", "Usage:", "Options:", "--version", "--help"]

/-- `TestPrintHelp`: the expected strings the captured output does not
contain, one `t.Errorf` each; the test passes when the list is empty. -/
def TestPrintHelp : List String :=
  expectedStrings.filter (fun expected => !Contains helpText expected)

/-- `TestVersion`: the number of `t.Error` calls; the test passes at 0. -/
def TestVersion : Nat :=
  (if version == "" then 1 else 0) + (if !Contains version "0.1.0" then 1 else 0)

/-! ## Reading the help text back

The options a user finds documented in a help text: the lines that follow the
line `Options:` up to the next empty line, each naming an option as
`--<name>`.  This reading follows the wording of the help text's contract, not
a function of the program; it is compared below with `registeredFlags`. -/

/-- The lines of a text, split at newlines. -/
def splitLines : List Char → List (List Char)
  | [] => [[]]
  | c :: cs =>
    if c = '\n' then [] :: splitLines cs
    else
      match splitLines cs with
      | [] => [[c]]
      | l :: ls => (c :: l) :: ls

/-- The lines after the first line equal to `Options:`. -/
def afterOptionsHeader : List (List Char) → List (List Char)
  | [] => []
  | l :: ls => if l = "Options:".data then ls else afterOptionsHeader ls

/-- The block of lines under `Options:`, ending at the first empty line. -/
def optionsSection (lines : List (List Char)) : List (List Char) :=
  (afterOptionsHeader lines).takeWhile (fun l => !l.isEmpty)

/-- The option a line documents: after leading blanks, `--` and then the name
up to the next blank. -/
def optionName (line : List Char) : Option String :=
  match line.dropWhile (fun c => c == ' ') with
  | '-' :: '-' :: rest => some ⟨rest.takeWhile (fun c => c != ' ')⟩
  | _ => none

/-- The option names listed under `Options:` in a help text, in order. -/
def documentedOptions (text : String) : List String :=
  (optionsSection (splitLines text.data)).filterMap optionName

/-! ## Properties of the primitives -/

theorem HasPrefix_iff (s p : List Char) : HasPrefix s p = true ↔ p <+: s := by
  induction s generalizing p with
  | nil =>
    cases p with
    | nil => simp [HasPrefix]
    | cons d p => simp [HasPrefix]
  | cons c s ih =>
    cases p with
    | nil => simp [HasPrefix]
    | cons d p =>
      simp only [HasPrefix, Bool.and_eq_true, beq_iff_eq, ih, List.cons_prefix_cons]
      constructor
      · rintro ⟨h, hp⟩
        exact ⟨h.symm, hp⟩
      · rintro ⟨h, hp⟩
        exact ⟨h.symm, hp⟩

theorem containsChars_iff (s sub : List Char) :
    containsChars s sub = true ↔ sub <:+: s := by
  induction s with
  | nil =>
    cases sub with
    | nil => simp [containsChars, HasPrefix]
    | cons d p => simp [containsChars, HasPrefix]
  | cons c s ih =>
    simp only [containsChars, Bool.or_eq_true, HasPrefix_iff, ih, List.infix_cons_iff]

/-- The boolean search agrees with the usual meaning of "substring": some text
before, then `substr`, then some text after. -/
theorem Contains_iff (s substr : String) :
    Contains s substr = true ↔ ∃ before after, before ++ substr.data ++ after = s.data := by
  simp only [Contains, containsChars_iff]
  rfl

theorem write_running (w : World) (s : String) (h : w.exit = none) :
    write w s = ⟨w.stdout ++ s, none⟩ := by
  cases w with
  | mk out ex =>
    simp only at h
    subst h
    rfl

theorem write_exited (w : World) (s : String) (code : Int) (h : w.exit = some code) :
    write w s = w := by
  cases w with
  | mk out ex =>
    simp only at h
    subst h
    rfl

set_option maxRecDepth 100000 in
/-- The help text, written out. -/
theorem helpText_eq :
    helpText =
      "Railgun - High-performance streaming data pipeline for PostgreSQL\n\nUsage:\n  railgun [options]\n\nOptions:\n  --version    Show version information\n  --help       Show this help message\n\nThis tool is under active development.\nVisit https://github.com/benidevo/railgun for more information.\n" := by
  decide

/-- The positional arguments have no influence on `main`. -/
theorem main_args (v h : Bool) (a b : List String) (w : World) :
    main ⟨v, h, a⟩ w = main ⟨v, h, b⟩ w := rfl

set_option maxRecDepth 100000 in
/-- In any running process `printHelp` appends the help text and keeps the
process running. -/
theorem printHelp_running (w : World) (h : w.exit = none) :
    printHelp w = ⟨w.stdout ++ helpText, none⟩ := by
  obtain ⟨out, ex⟩ := w
  simp only at h
  subst h
  have e : helpText =
      ("Railgun - High-performance streaming data pipeline for PostgreSQL" ++ "\n") ++
      ("\n" ++ (("Usage:" ++ "\n") ++ (("  railgun [options]" ++ "\n") ++ ("\n" ++
      (("Options:" ++ "\n") ++ (("  --version    Show version information" ++ "\n") ++
      (("  --help       Show this help message" ++ "\n") ++ ("\n" ++
      (("This tool is under active development." ++ "\n") ++
      ("Visit https://github.com/benidevo/railgun for more information." ++ "\n")))))))))) := by
    decide
  rw [e]
  simp only [printHelp, Println, Println0, write, String.append_assoc]

theorem Println_running (out s : String) :
    Println ⟨out, none⟩ s = ⟨out ++ (s ++ "\n"), none⟩ := rfl

theorem Println_exited (out s : String) (code : Int) :
    Println ⟨out, some code⟩ s = ⟨out, some code⟩ := rfl

theorem Printf_running (out format : String) (args : List String) :
    Printf ⟨out, none⟩ format args = ⟨out ++ Sprintf format args, none⟩ := rfl

theorem osExit_running (out : String) (code : Int) :
    osExit ⟨out, none⟩ code = ⟨out, some code⟩ := rfl

theorem osExit_exited (out : String) (code code2 : Int) :
    osExit ⟨out, some code⟩ code2 = ⟨out, some code⟩ := rfl

theorem printHelp_exited (out : String) (code : Int) :
    printHelp ⟨out, some code⟩ = ⟨out, some code⟩ := rfl

/-- A process that has exited is left as it is by `main`. -/
theorem main_exited (f : Flags) (w : World) (code : Int) (h : w.exit = some code) :
    main f w = w := by
  obtain ⟨out, ex⟩ := w
  simp only at h
  subst h
  obtain ⟨v, hlp, a⟩ := f
  cases v <;> cases hlp <;> rfl

set_option maxRecDepth 100000 in
/-- In any running process `main` appends one of three texts, chosen by the
two flags, version first; it exits with 0 on the first two and returns on the
third. -/
theorem main_running (f : Flags) (w : World) (h : w.exit = none) :
    main f w =
      ⟨w.stdout ++ (if f.showVersion then "railgun version 0.1.0-dev\n"
          else if f.showHelp then helpText else banner),
        if f.showVersion || f.showHelp then some 0 else none⟩ := by
  obtain ⟨out, ex⟩ := w
  simp only at h
  subst h
  obtain ⟨v, hlp, a⟩ := f
  have hv : Sprintf "railgun version %s\n" [version] = "railgun version 0.1.0-dev\n" := by
    decide
  have hb : banner =
      ("Railgun - High-performance streaming data pipeline for PostgreSQL" ++ "\n") ++
      ("Under development. Use --help for more information." ++ "\n") := by
    decide
  have hh := printHelp_running ⟨out, none⟩ rfl
  simp only at hh
  cases v <;> cases hlp
  · simp only [main, Bool.false_eq_true, if_false, Println_running, hb, String.append_assoc,
      Bool.or_self]
  · simp only [main, Bool.false_eq_true, if_false, if_true, hh, osExit_running, Println_exited,
      Bool.or_true]
  · simp only [main, Bool.false_eq_true, if_false, if_true, Printf_running, hv, osExit_running,
      Println_exited, Bool.or_false]
  · simp only [main, if_true, Printf_running, hv, osExit_running, printHelp_exited,
      osExit_exited, Println_exited, Bool.or_self]

/-! ## The claims -/

set_option maxRecDepth 100000 in
/-- C1: the text printed by `printHelp` contains each of the substrings
"Railgun", "Usage:", "Options:", "--version" and "--help" (so `TestPrintHelp`
reports no error). -/
theorem printHelp_contains_expected :
    Contains (printHelp World.start).stdout "Railgun" = true ∧
    Contains (printHelp World.start).stdout "Usage:" = true ∧
    Contains (printHelp World.start).stdout "Options:" = true ∧
    Contains (printHelp World.start).stdout "--version" = true ∧
    Contains (printHelp World.start).stdout "--help" = true ∧
    TestPrintHelp = [] := by
  refine ⟨?_, ?_, ?_, ?_, ?_, ?_⟩ <;> decide

/-- C2: the version constant is a non-empty string and contains the substring
"0.1.0" (so `TestVersion` reports no error). -/
theorem version_nonempty_contains :
    version ≠ "" ∧ Contains version "0.1.0" = true ∧ TestVersion = 0 := by
  refine ⟨?_, ?_, ?_⟩ <;> decide

set_option maxRecDepth 100000 in
/-- C3: whatever the help flag and the positional arguments, with the version
flag set `main` writes exactly the line "railgun version " followed by the
version constant and a newline, that is "railgun version 0.1.0-dev\n", and
exits with code 0; the output contains neither the help text nor the
under-development banner (nor its second line alone). -/
theorem main_version_precedence (help : Bool) (args : List String) :
    main ⟨true, help, args⟩ World.start = ⟨"railgun version " ++ version ++ "\n", some 0⟩ ∧
    (main ⟨true, help, args⟩ World.start).stdout = "railgun version 0.1.0-dev\n" ∧
    (main ⟨true, help, args⟩ World.start).exitStatus = 0 ∧
    Contains (main ⟨true, help, args⟩ World.start).stdout helpText = false ∧
    Contains (main ⟨true, help, args⟩ World.start).stdout banner = false ∧
    Contains (main ⟨true, help, args⟩ World.start).stdout
      "Under development. Use --help for more information." = false := by
  rw [main_args true help args []]
  cases help <;> decide

set_option maxRecDepth 100000 in
/-- C4: with the help flag set and the version flag not set, `main` writes
exactly the output of `printHelp` and exits with code 0; the output contains
neither the two-line under-development banner nor its second line. -/
theorem main_help (args : List String) :
    main ⟨false, true, args⟩ World.start = osExit (printHelp World.start) 0 ∧
    (main ⟨false, true, args⟩ World.start).stdout = (printHelp World.start).stdout ∧
    (main ⟨false, true, args⟩ World.start).exit = some 0 ∧
    (main ⟨false, true, args⟩ World.start).exitStatus = 0 ∧
    Contains (main ⟨false, true, args⟩ World.start).stdout banner = false ∧
    Contains (main ⟨false, true, args⟩ World.start).stdout
      "Under development. Use --help for more information." = false := by
  rw [main_args false true args []]
  decide

set_option maxRecDepth 100000 in
/-- C5: with neither flag set `main` writes exactly the two lines
"Railgun - High-performance streaming data pipeline for PostgreSQL" and
"Under development. Use --help for more information." and returns without
calling `os.Exit`; and for every flag combination the text on standard output
is a function of the two boolean flags alone: the positional arguments do not
change it. -/
theorem main_default_and_flags_only (v h : Bool) (a b : List String) :
    main ⟨false, false, a⟩ World.start =
      ⟨"Railgun - High-performance streaming data pipeline for PostgreSQL\nUnder development. Use --help for more information.\n", none⟩ ∧
    (main ⟨v, h, a⟩ World.start).stdout = (main ⟨v, h, b⟩ World.start).stdout ∧
    (main ⟨v, h, a⟩ World.start).stdout =
      (if v then "railgun version 0.1.0-dev\n" else if h then helpText else banner) := by
  refine ⟨?_, ?_, ?_⟩
  · rw [main_args false false a []]
    decide
  · rw [main_args v h a b]
  · rw [main_args v h a []]
    cases v <;> cases h <;> decide

set_option maxRecDepth 100000 in
/-- C6: for every combination of the version and help flags (and any
positional arguments) `main` terminates with exit status 0: through
`os.Exit(0)` when the version or the help flag is set, by returning otherwise;
no path hands a non-zero code to `os.Exit`. -/
theorem main_exit_zero (f : Flags) :
    (main f World.start).exitStatus = 0 ∧
    (main f World.start).exit = (if f.showVersion || f.showHelp then some 0 else none) ∧
    ((main f World.start).exit = none ∨ (main f World.start).exit = some 0) := by
  obtain ⟨v, h, a⟩ := f
  rw [main_args v h a []]
  show _ ∧ _ = (if (v || h) = true then some 0 else none) ∧ _
  cases v <;> cases h <;> decide

set_option maxRecDepth 100000 in
/-- C10: the option names listed under "Options:" in the output of
`printHelp`, each written as "--<name>", are exactly the names of the flags
registered in `main`, namely "version" and "help". -/
theorem help_documents_registered_flags (n : String) :
    documentedOptions (printHelp World.start).stdout = registeredFlags.map BoolFlag.name ∧
    (n ∈ documentedOptions (printHelp World.start).stdout ↔
      n ∈ registeredFlags.map BoolFlag.name) ∧
    (n ∈ registeredFlags.map BoolFlag.name ↔ n = "version" ∨ n = "help") := by
  have hd : documentedOptions (printHelp World.start).stdout = ["version", "help"] := by
    decide
  have hr : registeredFlags.map BoolFlag.name = ["version", "help"] := by
    decide
  rw [hd, hr]
  simp

end Railgun
